import Mathlib

/-!
Shallow embedding of the podcast-summary-bot sources and proofs about them.

The embedded code comes from:
* `src/config/podcasts.py` (the `PodcastConfig` dataclass and the podcast list),
* `src/main.py` (the detection-method dispatch of `_process_podcast` and the
  new-episode / tracker-update flow),
* `src/storage/tracker.py` (`EpisodeTracker`: `_load`, `_save`,
  `is_new_episode`, `update_last_episode`),
* `src/services/transcript.py` (`_titles_match`, `_find_matching_file`,
  `_enrich_from_apple_podcasts`, the tail of `detect_and_fetch_latest`,
  `TwentyVCTranscriptStrategy._split_audio` and the chunked part of its
  `fetch_transcript`, `_clean_transcript`),
* `src/utils/helpers.py` (`split_message`) and `src/services/telegram.py`
  (`_send_message`).

Strings are modelled as lists of characters (Python `str` is a sequence of
code points, as is `String.data`), machine integers as `Nat`, file sizes and
millisecond durations as `Nat`, and external effects (HTTP, the Whisper API,
the mp3 encoder, the filesystem) as explicit oracle parameters or operation
traces.  Python exceptions that escape a function are modelled with `Except`.
-/

namespace PodcastBot

/-! ## Character and list utilities shared by the embedded functions -/

/-- Python whitespace (the default class used by `str.split()` / `str.strip()`). -/
def isPyWs (c : Char) : Bool :=
  c = ' ' || c = '\t' || c = '\n' || c = '\r' || c = Char.ofNat 11 || c = Char.ofNat 12

/-- Worker for `pyWords`, accumulating the current token reversed. -/
def pyWordsGo (acc : List Char) : List Char → List (List Char)
  | [] => if acc.isEmpty then [] else [acc.reverse]
  | c :: rest =>
    if isPyWs c then
      if acc.isEmpty then pyWordsGo [] rest
      else acc.reverse :: pyWordsGo [] rest
    else pyWordsGo (c :: acc) rest

/-- `s.split()`: split on whitespace runs, producing no empty tokens. -/
def pyWords (l : List Char) : List (List Char) := pyWordsGo [] l

/-- `s.strip()` on a character list. -/
def pyStripL (l : List Char) : List Char :=
  ((l.dropWhile isPyWs).reverse.dropWhile isPyWs).reverse

/-- `s.strip()`. -/
def pyStrip (s : String) : String := ⟨pyStripL s.data⟩

/-- Python `needle in hay` on strings: contiguous substring test. -/
def substrOf (needle hay : List Char) : Bool := decide (needle <:+: hay)

/-- Worker for `replaceSeq`; the budget is decremented on every character and
never runs out for a budget of at least the input length plus one. -/
def replaceSeqGo (pat rep : List Char) : Nat → List Char → List Char
  | 0, l => l
  | _ + 1, [] => []
  | budget + 1, c :: rest =>
    if pat ≠ [] ∧ pat.isPrefixOf (c :: rest) then
      rep ++ replaceSeqGo pat rep budget ((c :: rest).drop pat.length)
    else c :: replaceSeqGo pat rep budget rest

/-- Leftmost non-overlapping `s.replace(pat, rep)` for a non-empty pattern. -/
def replaceSeq (l pat rep : List Char) : List Char := replaceSeqGo pat rep (l.length + 1) l

/-- `' '.join(words)` on character lists. -/
def unwordsL : List (List Char) → List Char
  | [] => []
  | [w] => w
  | w :: ws => w ++ ' ' :: unwordsL ws

/-- `str.lower()` (ASCII case folding, which covers every input considered here). -/
def toLowerL (l : List Char) : List Char := l.map Char.toLower

/-- The apostrophe character, `chr(39)`. -/
def apos : Char := Char.ofNat 39

/-! ## Fuzzy title matching: `SubClubTranscriptStrategy._titles_match`
(`src/services/transcript.py`, lines 232-264) -/

/-- The literal pattern the quote-normalisation line of `_titles_match`
replaces: the smart-quote characters were lost from the source file, so the
line `s = s.replace(quote-variants...)` lexes as one `replace` of this stray
fifteen-character string by an apostrophe, followed by two replaces of the
plain double quote by itself. -/
def strayQuotePat : List Char := (", \x22\x27\x22).replace(").data

/-- The `normalize` closure inside `_titles_match`: lowercase, unify the three
unicode dash variants to `-`, apply the (degenerate) quote replacements, and
collapse whitespace runs to single spaces. -/
def normalizeTitleL (s : String) : List Char :=
  let l := toLowerL s.data
  let l := l.map fun c =>
    if c = Char.ofNat 0x2013 ∨ c = Char.ofNat 0x2014 ∨ c = Char.ofNat 0x2212 then '-' else c
  let l := replaceSeq l strayQuotePat [apos]
  let l := l.map fun c => if c = '"' then '"' else c
  unwordsL (pyWords l)

/-- The fixed stop-word set of `_titles_match`. -/
def skipWordsList : List (List Char) :=
  ["the", "a", "an", "and", "or", "with", "by", "for", "to", "of", "in", "on"].map String.data

/-- First three significant words of a normalized title. -/
def sigWords3 (l : List Char) : List (List Char) :=
  ((pyWords l).filter (fun w => ¬ skipWordsList.contains w)).take 3

/-- `SubClubTranscriptStrategy._titles_match`. -/
def titlesMatch (title1 title2 : String) : Bool :=
  if normalizeTitleL title1 = normalizeTitleL title2 then true
  else if substrOf (normalizeTitleL title1) (normalizeTitleL title2) ∨
      substrOf (normalizeTitleL title2) (normalizeTitleL title1) then true
  else if (pyWords (normalizeTitleL title1)).take 5 =
      (pyWords (normalizeTitleL title2)).take 5 then true
  else sigWords3 (normalizeTitleL title1) = sigWords3 (normalizeTitleL title2)

/-! ## Archive file scoring: `LennysTranscriptStrategy._find_matching_file`
(`src/services/transcript.py`, lines 822-857) -/

/-- `pathlib.Path(name).stem`: the name with its final suffix removed; a name
with no dot, a leading dot only, or a trailing dot only is left unchanged. -/
def stemOf (name : List Char) : List Char :=
  let tl := (name.reverse.takeWhile (fun c => c ≠ '.')).length
  if tl = name.length then name
  else
    let i := name.length - 1 - tl
    if 0 < i ∧ i < name.length - 1 then name.take i else name

/-- The per-file score computed inside `_find_matching_file`: +10 when either
of guest name and extension-stripped lowercased file name contains the other,
then +5 when every whitespace token of the guest name occurs in the file name,
else +1 per occurring token. -/
def scoreFilename (fileName : List Char) (guestLower : List Char)
    (guestParts : List (List Char)) : Nat :=
  (if substrOf guestLower (toLowerL (stemOf fileName)) ∨
      substrOf (toLowerL (stemOf fileName)) guestLower then 10 else 0) +
  (if (guestParts.filter fun p => substrOf p (toLowerL (stemOf fileName))).length =
      guestParts.length then 5
   else if 0 < (guestParts.filter fun p => substrOf p (toLowerL (stemOf fileName))).length
   then (guestParts.filter fun p => substrOf p (toLowerL (stemOf fileName))).length
   else 0)

/-- One iteration of the best-score fold in `_find_matching_file`. -/
def bestScoreStep (score : List Char → Nat) (st : Option (List Char) × Nat)
    (f : List Char) : Option (List Char) × Nat :=
  if st.2 < score f then (some f, score f) else st

/-- Invariant of the best-score fold state: a `none` best has score zero, a
`some` best carries its own score. -/
def BestInv (score : List Char → Nat) (st : Option (List Char) × Nat) : Prop :=
  (st.1 = none → st.2 = 0) ∧ ∀ f, st.1 = some f → st.2 = score f

/-- The best-score fold of `_find_matching_file` over a file listing. -/
def bestScoreFold (files : List (List Char)) (guestName : List Char) :
    Option (List Char) × Nat :=
  files.foldl
    (bestScoreStep fun f =>
      scoreFilename f (toLowerL guestName) (pyWords (toLowerL guestName)))
    (none, 0)

/-- `LennysTranscriptStrategy._find_matching_file`, with file records reduced
to their names (the only field the score inspects). -/
def findMatchingFile (files : List (List Char)) (guestName : List Char) :
    Option (List Char) :=
  if (bestScoreFold files guestName).1.isSome ∧ 0 < (bestScoreFold files guestName).2 then
    (bestScoreFold files guestName).1
  else none

/-! ## Podcast configuration: `src/config/podcasts.py` -/

/-- The `PodcastConfig` dataclass, with exactly the fields the source declares. -/
structure PodcastConfig where
  id : String
  name : String
  rss_url : String
  apple_podcasts_url : Option String := none
  website : Option String := none
  category : Option String := none

/-- The attribute names `PodcastConfig` instances carry (its dataclass fields). -/
def podcastConfigFields : List String :=
  ["id", "name", "rss_url", "apple_podcasts_url", "website", "category"]

/-- Python values an attribute read can produce here. -/
inductive PyVal
  | pstr (s : String)
  | popt (s : Option String)

/-- `getattr(config, attr)`: the field value, or an `AttributeError` when the
dataclass declares no such field. -/
def pyGetattr (c : PodcastConfig) (attr : String) : Except String PyVal :=
  if attr = "id" then .ok (.pstr c.id)
  else if attr = "name" then .ok (.pstr c.name)
  else if attr = "rss_url" then .ok (.pstr c.rss_url)
  else if attr = "apple_podcasts_url" then .ok (.popt c.apple_podcasts_url)
  else if attr = "website" then .ok (.popt c.website)
  else if attr = "category" then .ok (.popt c.category)
  else .error ("AttributeError: " ++ attr)

/-- Python truthiness of the values above. -/
def PyVal.truthy : PyVal → Bool
  | .pstr s => s ≠ ""
  | .popt s => s.isSome ∧ s ≠ some ""

/-- The three detection methods `_process_podcast` can dispatch to. -/
inductive DetectionMethod
  | dropbox
  | apple
  | rss
deriving DecidableEq

/-- The detection-method dispatch at the top of
`PodcastSummaryBot._process_podcast` (`src/main.py`, lines 103-121): it first
reads `podcast.use_dropbox_for_detection`, then
`podcast.use_apple_for_detection`, and falls back to RSS; an attribute read
that raises propagates out of the dispatch. -/
def selectDetectionMethod (c : PodcastConfig) (browserActive : Bool) :
    Except String DetectionMethod := do
  let d ← pyGetattr c "use_dropbox_for_detection"
  if d.truthy && browserActive then
    pure .dropbox
  else
    let a ← pyGetattr c "use_apple_for_detection"
    if a.truthy && browserActive then pure .apple else pure .rss

/-- The configured podcast list `PODCASTS` (`src/config/podcasts.py`). -/
def PODCASTS : List PodcastConfig :=
  [{ id := "lennys-podcast", name := "Lenny\x27s Podcast",
     rss_url := "https://api.substack.com/feed/podcast/10845.rss",
     apple_podcasts_url := some "https://podcasts.apple.com/us/podcast/lennys-podcast-product-growth-career/id1627920305",
     website := some "https://www.lennysnewsletter.com/podcast",
     category := some "Product Management" },
   { id := "sub-club", name := "Sub Club by RevenueCat",
     rss_url := "https://feeds.transistor.fm/sub-club",
     apple_podcasts_url := some "https://podcasts.apple.com/us/podcast/sub-club-by-revenuecat/id1538057974",
     website := some "https://subclub.com/",
     category := some "Mobile App Monetization" },
   { id := "20vc", name := "The Twenty Minute VC",
     rss_url := "https://thetwentyminutevc.libsyn.com/rss",
     apple_podcasts_url := some "https://podcasts.apple.com/us/podcast/the-twenty-minute-vc-vc-venture-capital-startup-funding/id958230465",
     website := some "https://www.thetwentyminutevc.com",
     category := some "Venture Capital" }]

/-! ## Episode model (`src/models/episode.py`) and archive enrichment
(`LennysTranscriptStrategy._enrich_from_apple_podcasts` and the tail of
`detect_and_fetch_latest`, `src/services/transcript.py`) -/

/-- The `Guest` model. -/
structure Guest where
  name : String
  description : Option String := none
  linkedin_url : Option String := none

/-- The `Episode` model.  `datetime` values are modelled as opaque integer
timestamps. -/
structure Episode where
  guid : String
  podcast_id : String
  title : String
  description : String := ""
  published_date : Option Int := none
  episode_url : Option String := none
  audio_url : Option String := none
  apple_podcasts_url : Option String := none
  guests : List Guest := []
  transcript : Option String := none
  summary : Option String := none
  duration : Option String := none

/-- `DropboxEpisodeResult`. -/
structure DropboxEpisodeResult where
  episode : Episode
  transcript : String
  filename : String

/-- What `_enrich_from_apple_podcasts` extracts from the Apple Podcasts pages:
the first episode link (already absolutized), and the title / date / LinkedIn
URL found on the episode page, each optional. -/
structure ApplePageData where
  episodeUrl : Option String
  appleTitle : Option String
  publishedDate : Option Int
  linkedinUrl : Option String

/-- `LennysTranscriptStrategy._enrich_from_apple_podcasts`
(`src/services/transcript.py`, lines 418-592), with the browser interaction
abstracted into its extracted data: `none` for `pageData` covers the
no-episode-links and navigation-error early returns, in which case the method
returns `None`; otherwise it builds a fresh `Episode` copying `guid`,
`podcast_id`, `audio_url` and `duration` from the base episode and overlaying
the extracted title, date and URLs. -/
def enrichFromApplePodcasts (episode : Episode) (podcast : PodcastConfig)
    (pageData : Option ApplePageData) : Option Episode :=
  if podcast.apple_podcasts_url.isNone then none
  else
    match pageData with
    | none => none
    | some d =>
      let enrichedGuests :=
        match episode.guests with
        | [] => []
        | g :: _ => [{ name := g.name, linkedin_url := d.linkedinUrl, description := none }]
      some
        { guid := episode.guid
          podcast_id := episode.podcast_id
          title := d.appleTitle.getD episode.title
          description := ""
          published_date := d.publishedDate <|> episode.published_date
          episode_url := d.episodeUrl <|> episode.episode_url
          audio_url := episode.audio_url
          apple_podcasts_url := d.episodeUrl <|> episode.apple_podcasts_url
          guests := enrichedGuests
          duration := episode.duration }

/-- The tail of `LennysTranscriptStrategy.detect_and_fetch_latest`
(`src/services/transcript.py`, lines 399-412): apply the enrichment result if
there is one, keep the base episode otherwise, and package the result. -/
def finalizeDetect (base : Episode) (enriched : Option Episode)
    (transcript filename : String) : DropboxEpisodeResult :=
  { episode := enriched.getD base, transcript := transcript, filename := filename }

/-! ## Dedup tracker: `src/storage/tracker.py` -/

/-- A well-formed tracked entry (the shape `update_last_episode` writes). -/
structure TrackedEntry where
  guid : String
  title : String
  published_date : Option Int := none
  processed_at : Int := 0
deriving DecidableEq

/-- The tracker's in-memory map, podcast id to last tracked entry. -/
abbrev TrackerState := List (String × TrackedEntry)

/-- `EpisodeTracker.get_last_episode` on well-formed state: the stored entry. -/
def getLastEpisode (s : TrackerState) (podcastId : String) : Option TrackedEntry :=
  s.lookup podcastId

/-- `EpisodeTracker.is_new_episode` (lines 115-129): true when nothing is
stored for the podcast, otherwise true exactly when the stored guid differs. -/
def isNewEpisode (s : TrackerState) (podcastId guid : String) : Bool :=
  match getLastEpisode s podcastId with
  | none => true
  | some last => last.guid != guid

/-- `EpisodeTracker.update_last_episode` (lines 90-113): overwrite (or create)
the entry for the podcast. -/
def updateLastEpisode (s : TrackerState) (podcastId guid title : String)
    (publishedDate : Option Int) (now : Int) : TrackerState :=
  if (s.lookup podcastId).isSome then
    s.map fun kv =>
      if kv.1 = podcastId then
        (podcastId, { guid := guid, title := title, published_date := publishedDate,
                      processed_at := now })
      else kv
  else
    s ++ [(podcastId, { guid := guid, title := title, published_date := publishedDate,
                        processed_at := now })]

/-- The episode fields `_process_podcast` passes to the tracker. -/
structure DetectedEpisode where
  guid : String
  title : String
  published_date : Option Int := none

/-- Outcome of one `_process_podcast` call: the tracker state afterwards,
whether a new episode was processed, and how many episode-summary
notifications were attempted. -/
structure ProcessOutcome where
  state : TrackerState
  processed : Bool
  notifications : Nat
deriving DecidableEq

/-- The post-detection part of `PodcastSummaryBot._process_podcast`
(`src/main.py`, lines 123-147): no episode means nothing happens; a known guid
means return before any notification; otherwise `_process_new_episode` runs
(attempting one Telegram notification, its overall success given by the
`processSucceeds` oracle) and the tracker is updated only on success. -/
def processDetected (s : TrackerState) (podcastId : String)
    (detected : Option DetectedEpisode) (processSucceeds : Bool) (now : Int) :
    ProcessOutcome :=
  match detected with
  | none => { state := s, processed := false, notifications := 0 }
  | some ep =>
    if isNewEpisode s podcastId ep.guid then
      if processSucceeds then
        { state := updateLastEpisode s podcastId ep.guid ep.title ep.published_date now
          processed := true, notifications := 1 }
      else
        { state := s, processed := false, notifications := 1 }
    else
      { state := s, processed := false, notifications := 0 }

/-! ## Tracker persistence as an operation trace: `EpisodeTracker._save`
(`src/storage/tracker.py`, lines 52-63) -/

/-- Filesystem operations relevant to `_save`. -/
inductive FsOp
  | mkdirParents (dir : String)
  | openTrunc (path : String)
  | writeAll (path : String) (content : String)
  | rename (src dst : String)

/-- `pathlib.Path(p).parent` for the relative paths used here. -/
def parentDir (p : String) : String :=
  let parts := p.splitOn "/"
  if parts.length ≤ 1 then "." else String.intercalate "/" (parts.dropLast)

/-- The operation trace of `EpisodeTracker._save`: ensure the parent directory
exists, open the data file for writing (truncating it), and write the
serialized state.  There is no temporary file and no rename. -/
def trackerSaveOps (dataFile : String) (serialized : String) : List FsOp :=
  [.mkdirParents (parentDir dataFile), .openTrunc dataFile, .writeAll dataFile serialized]

/-- Effect of one operation on a name-to-content map. -/
def applyFsOp (fs : String → Option String) : FsOp → String → Option String
  | .mkdirParents _ => fs
  | .openTrunc p => fun q => if q = p then some "" else fs q
  | .writeAll p c => fun q => if q = p then some c else fs q
  | .rename src dst => fun q =>
      if q = dst then fs src else if q = src then none else fs q

/-- Run a list of operations. -/
def runFsOps (ops : List FsOp) (fs : String → Option String) : String → Option String :=
  ops.foldl applyFsOp fs

/-- Whether a trace contains any rename. -/
def hasRename (ops : List FsOp) : Bool :=
  ops.any fun op => match op with | .rename _ _ => true | _ => false

/-- A filesystem holding exactly one file. -/
def singleFileFs (path content : String) : String → Option String :=
  fun q => if q = path then some content else none

/-! ## Tracker persistence: `EpisodeTracker._load` (`src/storage/tracker.py`,
lines 38-50) with the stdlib collaborators (`open(..., encoding="utf-8")` /
`json`) modelled at the byte and grammar level -/

/-- A continuation byte. -/
def utf8Cont (b : Nat) : Bool := 0x80 ≤ b && b ≤ 0xBF

/-- Strict UTF-8 decoding (what reading the tracker file in text mode does):
rejects stray continuation bytes, overlong forms, surrogates and bytes above
`0xF4`. -/
def utf8Decode : List Nat → Option (List Char)
  | [] => some []
  | b :: rest =>
    if b ≤ 0x7F then (Char.ofNat b :: ·) <$> utf8Decode rest
    else if 0xC2 ≤ b && b ≤ 0xDF then
      match rest with
      | b2 :: rest2 =>
        if utf8Cont b2 then
          (Char.ofNat ((b - 0xC0) * 64 + (b2 - 0x80)) :: ·) <$> utf8Decode rest2
        else none
      | [] => none
    else if 0xE0 ≤ b && b ≤ 0xEF then
      match rest with
      | b2 :: b3 :: rest2 =>
        if (if b = 0xE0 then 0xA0 ≤ b2 && b2 ≤ 0xBF
            else if b = 0xED then 0x80 ≤ b2 && b2 ≤ 0x9F
            else utf8Cont b2) && utf8Cont b3 then
          (Char.ofNat ((b - 0xE0) * 4096 + (b2 - 0x80) * 64 + (b3 - 0x80)) :: ·) <$>
            utf8Decode rest2
        else none
      | _ => none
    else if 0xF0 ≤ b && b ≤ 0xF4 then
      match rest with
      | b2 :: b3 :: b4 :: rest2 =>
        if (if b = 0xF0 then 0x90 ≤ b2 && b2 ≤ 0xBF
            else if b = 0xF4 then 0x80 ≤ b2 && b2 ≤ 0x8F
            else utf8Cont b2) && utf8Cont b3 && utf8Cont b4 then
          (Char.ofNat ((b - 0xF0) * 262144 + (b2 - 0x80) * 4096 + (b3 - 0x80) * 64 +
            (b4 - 0x80)) :: ·) <$> utf8Decode rest2
        else none
      | _ => none
    else none

/-- The UTF-8 bytes of an ASCII string. -/
def asciiBytes (s : String) : List Nat := s.data.map Char.toNat

/-- JSON values (numbers kept as lexemes; the tracker file holds none). -/
inductive Jsn
  | jnull
  | jbool (b : Bool)
  | jnum (lexeme : String)
  | jstr (s : String)
  | jarr (xs : List Jsn)
  | jobj (fields : List (String × Jsn))

/-- JSON insignificant whitespace. -/
def jsonWs (c : Char) : Bool := c = ' ' || c = '\t' || c = '\n' || c = '\r'

/-- Skip insignificant whitespace. -/
def skipJsonWs (l : List Char) : List Char := l.dropWhile jsonWs

/-- Hexadecimal digit test. -/
def isHexDig (c : Char) : Bool := c.isDigit || ('a' ≤ c && c ≤ 'f') || ('A' ≤ c && c ≤ 'F')

/-- Value of a hexadecimal digit. -/
def hexVal (c : Char) : Nat :=
  if c.isDigit then c.toNat - 48
  else if 'a' ≤ c && c ≤ 'f' then c.toNat - 87
  else if 'A' ≤ c && c ≤ 'F' then c.toNat - 55
  else 0

/-- Lex the remainder of a JSON string literal (after the opening quote),
returning its decoded content and the input after the closing quote. -/
def lexJsonString : List Char → Option (List Char × List Char)
  | [] => none
  | c :: rest =>
    if c = '"' then some ([], rest)
    else if c = '\\' then
      match rest with
      | [] => none
      | e :: rest1 =>
        if e = 'u' then
          match rest1 with
          | h1 :: h2 :: h3 :: h4 :: rest2 =>
            if isHexDig h1 && isHexDig h2 && isHexDig h3 && isHexDig h4 then
              (fun p => (Char.ofNat (hexVal h1 * 4096 + hexVal h2 * 256 + hexVal h3 * 16 +
                hexVal h4) :: p.1, p.2)) <$> lexJsonString rest2
            else none
          | _ => none
        else if e = '"' || e = '\\' || e = '/' then
          (fun p => (e :: p.1, p.2)) <$> lexJsonString rest1
        else if e = 'b' then (fun p => (Char.ofNat 8 :: p.1, p.2)) <$> lexJsonString rest1
        else if e = 'f' then (fun p => (Char.ofNat 12 :: p.1, p.2)) <$> lexJsonString rest1
        else if e = 'n' then (fun p => ('\n' :: p.1, p.2)) <$> lexJsonString rest1
        else if e = 'r' then (fun p => ('\r' :: p.1, p.2)) <$> lexJsonString rest1
        else if e = 't' then (fun p => ('\t' :: p.1, p.2)) <$> lexJsonString rest1
        else none
    else if c.toNat < 0x20 then none
    else (fun p => (c :: p.1, p.2)) <$> lexJsonString rest

/-- Lex the optional fraction part of a JSON number. -/
def lexFracPart (l : List Char) : Option (List Char × List Char) :=
  match l with
  | c :: r =>
    if c = '.' then
      let ds := r.takeWhile Char.isDigit
      if ds.isEmpty then none else some ('.' :: ds, r.dropWhile Char.isDigit)
    else some ([], l)
  | [] => some ([], [])

/-- Lex the optional exponent part of a JSON number. -/
def lexExpPart (l : List Char) : Option (List Char × List Char) :=
  match l with
  | c :: r =>
    if c = 'e' || c = 'E' then
      let (sgn, r1) :=
        match r with
        | s :: r1 => if s = '+' || s = '-' then ([s], r1) else (([] : List Char), r)
        | [] => ([], r)
      let ds := r1.takeWhile Char.isDigit
      if ds.isEmpty then none else some (c :: sgn ++ ds, r1.dropWhile Char.isDigit)
    else some ([], l)
  | [] => some ([], [])

/-- Lex a JSON number at the head of the input. -/
def lexJsonNumber (l : List Char) : Option (List Char × List Char) :=
  let (sign, l1) :=
    match l with
    | c :: r => if c = '-' then (([c] : List Char), r) else (([] : List Char), l)
    | [] => ([], l)
  match l1 with
  | [] => none
  | c :: rest =>
    if c = '0' && (rest.head?.elim true fun d => ¬ d.isDigit) then
      match lexFracPart rest with
      | some (fpart, r2) =>
        match lexExpPart r2 with
        | some (epart, r3) => some (sign ++ [c] ++ fpart ++ epart, r3)
        | none => none
      | none => none
    else if c.isDigit && c ≠ '0' then
      let ds := rest.takeWhile Char.isDigit
      let r1 := rest.dropWhile Char.isDigit
      match lexFracPart r1 with
      | some (fpart, r2) =>
        match lexExpPart r2 with
        | some (epart, r3) => some (sign ++ c :: ds ++ fpart ++ epart, r3)
        | none => none
      | none => none
    else none

/-- Parser modes: a value, the tail of an array, or the tail of an object. -/
inductive JsonPMode
  | value
  | arrTail (acc : List Jsn)
  | objTail (acc : List (String × Jsn))

/-- Left and right curly braces. -/
def lbrace : Char := Char.ofNat 0x7B

/-- Right curly brace. -/
def rbrace : Char := Char.ofNat 0x7D

/-- Recursive-descent JSON parser; the budget bounds the recursion depth and
the wrapper supplies one that is always sufficient. -/
def parseJ : Nat → JsonPMode → List Char → Option (Jsn × List Char)
  | 0, _, _ => none
  | fuel + 1, .value, l =>
    let l' := skipJsonWs l
    if "null".data.isPrefixOf l' then some (.jnull, l'.drop 4)
    else if "true".data.isPrefixOf l' then some (.jbool true, l'.drop 4)
    else if "false".data.isPrefixOf l' then some (.jbool false, l'.drop 5)
    else
      match l' with
      | [] => none
      | c :: rest =>
        if c = '"' then (fun p => (Jsn.jstr ⟨p.1⟩, p.2)) <$> lexJsonString rest
        else if c = '[' then
          match skipJsonWs rest with
          | d :: rest2 => if d = ']' then some (.jarr [], rest2) else parseJ fuel (.arrTail []) rest
          | [] => none
        else if c = lbrace then
          match skipJsonWs rest with
          | d :: rest2 =>
            if d = rbrace then some (.jobj [], rest2) else parseJ fuel (.objTail []) rest
          | [] => none
        else (fun p => (Jsn.jnum ⟨p.1⟩, p.2)) <$> lexJsonNumber l'
  | fuel + 1, .arrTail acc, l => do
    let (v, r) ← parseJ fuel .value l
    match skipJsonWs r with
    | c :: r2 =>
      if c = ',' then parseJ fuel (.arrTail (acc ++ [v])) r2
      else if c = ']' then some (.jarr (acc ++ [v]), r2)
      else none
    | [] => none
  | fuel + 1, .objTail acc, l =>
    match skipJsonWs l with
    | c :: r0 =>
      if c = '"' then do
        let (k, r1) ← lexJsonString r0
        match skipJsonWs r1 with
        | d :: r2 =>
          if d = ':' then do
            let (v, r3) ← parseJ fuel .value r2
            match skipJsonWs r3 with
            | e :: r4 =>
              if e = ',' then parseJ fuel (.objTail (acc ++ [(⟨k⟩, v)])) r4
              else if e = rbrace then some (.jobj (acc ++ [(⟨k⟩, v)]), r4)
              else none
            | [] => none
          else none
        | [] => none
      else none
    | [] => none

/-- `json.loads` on a character list: a full parse with nothing but
whitespace left over. -/
def parseJsonL (l : List Char) : Option Jsn :=
  match parseJ (2 * l.length + 8) .value l with
  | some (v, rest) => if (skipJsonWs rest).isEmpty then some v else none
  | none => none

/-- `json.loads` on a string. -/
def parseJson (s : String) : Option Jsn := parseJsonL s.data

/-- Errors that can escape `EpisodeTracker._load`. -/
inductive PyError
  | unicodeDecodeError
deriving DecidableEq

/-- `EpisodeTracker.__init__` / `_load` over the raw bytes of the persisted
file: a missing file yields the empty state; a file that decodes but fails to
parse is caught by the `except (json.JSONDecodeError, IOError)` clause and
reset to the empty state; a file whose bytes are not valid UTF-8 raises
`UnicodeDecodeError`, which that clause does not catch. -/
def loadTracker (file : Option (List Nat)) : Except PyError Jsn :=
  match file with
  | none => .ok (.jobj [])
  | some bytes =>
    match utf8Decode bytes with
    | none => .error .unicodeDecodeError
    | some text =>
      match parseJsonL text with
      | none => .ok (.jobj [])
      | some j => .ok j

/-- The JSON shape of a saved tracker entry (`update_last_episode` writes
strings and possibly a `null` publication date). -/
structure SavedEntry where
  guid : String
  title : String
  published_date : Option String := none
  processed_at : String

/-- `json.dumps` string escaping (with `ensure_ascii`). -/
def jsonEscape (s : String) : String :=
  ⟨s.data.flatMap fun c =>
    if c = '"' then ['\\', '"']
    else if c = '\\' then ['\\', '\\']
    else if c = '\n' then ['\\', 'n']
    else if c = '\t' then ['\\', 't']
    else if c = '\r' then ['\\', 'r']
    else if c.toNat < 0x20 || 0x7E < c.toNat then
      '\\' :: 'u' ::
        [c.toNat / 4096 % 16, c.toNat / 256 % 16, c.toNat / 16 % 16, c.toNat % 16].map
          fun n => if n < 10 then Char.ofNat (48 + n) else Char.ofNat (87 + n - 10)
    else [c]⟩

/-- A JSON string literal. -/
def jsonQuote (s : String) : String := "\"" ++ jsonEscape s ++ "\""

/-- `json.dump(self._data, f, indent=2, default=str)` for the dict-of-dicts
shape the tracker persists. -/
def dumpTrackerData (entries : List (String × SavedEntry)) : String :=
  match entries with
  | [] => "\x7b\x7d"
  | _ =>
    "\x7b\n" ++
      String.intercalate ",\n" (entries.map fun kv =>
        "  " ++ jsonQuote kv.1 ++ ": \x7b\n" ++
        "    \"guid\": " ++ jsonQuote kv.2.guid ++ ",\n" ++
        "    \"title\": " ++ jsonQuote kv.2.title ++ ",\n" ++
        "    \"published_date\": " ++
          (match kv.2.published_date with
           | none => "null"
           | some d => jsonQuote d) ++ ",\n" ++
        "    \"processed_at\": " ++ jsonQuote kv.2.processed_at ++ "\n  \x7d") ++
      "\n\x7d"

/-! ## Audio splitting and chunked transcription:
`TwentyVCTranscriptStrategy` (`src/services/transcript.py`, lines 907-1080) -/

/-- The Whisper hard upload limit, 25 MB. -/
def MAX_FILE_SIZE : Nat := 25 * 1024 * 1024

/-- The targeted chunk size, 20 MB. -/
def TARGET_CHUNK_SIZE : Nat := 20 * 1024 * 1024

/-- The initial chunk duration of `_split_audio`: the duration whose estimated
size is the target (duration-per-byte estimated from the whole file), floored
at one minute.  The float estimate of the source is modelled with exact
integer arithmetic. -/
def initialChunkDurationMs (fileSize durationMs : Nat) : Nat :=
  max (TARGET_CHUNK_SIZE * durationMs / fileSize) (60 * 1000)

/-- The export-then-verify loop of `_split_audio`, parametrised by the mp3
encoder's output size (`exportSize start end` is the byte size of the exported
segment).  A segment whose export exceeds the hard limit is discarded and the
chunk duration shrunk to 70 percent; otherwise the segment is appended and the
loop advances.  The budget bounds the number of iterations; exhausting it
models non-termination and yields `none`. -/
def splitAudioLoop (exportSize : Nat → Nat → Nat) (durationMs : Nat) :
    Nat → Nat → Nat → List (Nat × Nat) → Option (List (Nat × Nat))
  | 0, _, _, _ => none
  | fuel + 1, startMs, chunkDur, acc =>
    if startMs < durationMs then
      if MAX_FILE_SIZE < exportSize startMs (min (startMs + chunkDur) durationMs) then
        splitAudioLoop exportSize durationMs fuel startMs (chunkDur * 7 / 10) acc
      else
        splitAudioLoop exportSize durationMs fuel (min (startMs + chunkDur) durationMs)
          chunkDur (acc ++ [(startMs, min (startMs + chunkDur) durationMs)])
    else some acc

/-- `TwentyVCTranscriptStrategy._split_audio` (lines 1001-1055). -/
def splitAudioChunks (exportSize : Nat → Nat → Nat) (fileSize durationMs fuel : Nat) :
    Option (List (Nat × Nat)) :=
  splitAudioLoop exportSize durationMs fuel 0 (initialChunkDurationMs fileSize durationMs) []

/-- An encoder whose output size is proportional to the segment duration at
the file's overall byte rate. -/
def proportionalSize (fileSize durationMs : Nat) : Nat → Nat → Nat :=
  fun startMs endMs => fileSize * (endMs - startMs) / durationMs

/-- The segments start at `s`, are contiguous, and have non-negative width. -/
def chainedFrom (s : Nat) : List (Nat × Nat) → Prop
  | [] => True
  | c :: cs => c.1 = s ∧ c.1 ≤ c.2 ∧ chainedFrom c.2 cs

/-- Where the segment chain ends (`s` when there is no segment). -/
def endOfChunks (s : Nat) : List (Nat × Nat) → Nat
  | [] => s
  | c :: cs => endOfChunks c.2 cs

/-- `' '.join(transcripts)`. -/
def joinSpace (ts : List String) : String := String.intercalate " " ts

/-- Collapse runs of three or more newlines to two
(`re.sub(r'\n\x7b3,\x7d', '\n\n', ...)`), tracking the current run length. -/
def cleanCollapseNlGo (run : Nat) : List Char → List Char
  | [] => []
  | c :: rest =>
    if c = '\n' then
      if 2 ≤ run then cleanCollapseNlGo (run + 1) rest
      else '\n' :: cleanCollapseNlGo (run + 1) rest
    else c :: cleanCollapseNlGo 0 rest

/-- Collapse runs of two or more spaces to one
(`re.sub(r' \x7b2,\x7d', ' ', ...)`). -/
def cleanCollapseSpGo (run : Nat) : List Char → List Char
  | [] => []
  | c :: rest =>
    if c = ' ' then
      if 1 ≤ run then cleanCollapseSpGo (run + 1) rest
      else ' ' :: cleanCollapseSpGo (run + 1) rest
    else c :: cleanCollapseSpGo 0 rest

/-- `_clean_transcript`: collapse blank-line and space runs, then strip. -/
def cleanTranscript (s : String) : String :=
  pyStrip ⟨cleanCollapseSpGo 0 (cleanCollapseNlGo 0 s.data)⟩

/-- The per-segment collection loop of `fetch_transcript`: a segment whose
transcription result is `None` (or empty, which Python truth-testing also
drops) is omitted; the rest are kept in order. -/
def collectTranscripts (results : List (Option String)) : List String :=
  results.foldl
    (fun acc r =>
      match r with
      | some t => if t = "" then acc else acc ++ [t]
      | none => acc)
    []

/-- The chunked tail of `TwentyVCTranscriptStrategy.fetch_transcript` (lines
966-982): join the successful segment transcripts with single spaces and
clean, or report not-found when none succeeded. -/
def joinChunkTranscripts (results : List (Option String)) : Option String :=
  if (collectTranscripts results).isEmpty then none
  else some (cleanTranscript (joinSpace (collectTranscripts results)))

/-! ## Message splitting: `split_message` (`src/utils/helpers.py`, lines
177-223) and `TelegramService._send_message` (`src/services/telegram.py`,
lines 253-284) -/

/-- `text.split('\n\n')` (leftmost non-overlapping, empties kept). -/
def splitParasGo (acc : List Char) : List Char → List (List Char)
  | '\n' :: '\n' :: rest => acc.reverse :: splitParasGo [] rest
  | c :: rest => splitParasGo (c :: acc) rest
  | [] => [acc.reverse]

/-- The paragraphs of a message. -/
def paraSplit (text : String) : List String :=
  (splitParasGo [] text.data).map fun l => ⟨l⟩

/-- The character class of the regex `\s`. -/
def isReWs (c : Char) : Bool :=
  c = ' ' || c = '\t' || c = '\n' || c = '\r' || c = Char.ofNat 11 || c = Char.ofNat 12

/-- Sentence-final punctuation of the lookbehind `(?<=[.!?])`. -/
def isSentEnd (c : Char) : Bool := c = '.' || c = '!' || c = '?'

/-- `re.split(r'(?<=[.!?])\s+', paragraph)`: walk the characters tracking the
previous one; a whitespace character right after sentence-final punctuation
starts a separator run that is consumed entirely. -/
def splitSentGo : List Char → Bool → Char → List Char → List (List Char)
  | [], _, _, acc => [acc.reverse]
  | c :: rest, true, _, acc =>
    if isReWs c then splitSentGo rest true ' ' acc
    else splitSentGo rest false c (c :: acc)
  | c :: rest, false, prev, acc =>
    if isReWs c && isSentEnd prev then acc.reverse :: splitSentGo rest true ' ' []
    else splitSentGo rest false c (c :: acc)

/-- The sentences of a paragraph. -/
def splitSentences (s : String) : List String :=
  (splitSentGo s.data false ' ' []).map fun l => ⟨l⟩

/-- The sentence loop inside `split_message`, one step. -/
def sentenceFoldStep (maxLength : Nat) (st : List String × String) (sentence : String) :
    List String × String :=
  if maxLength < st.2.length + sentence.length + 1 then
    (if st.2 ≠ "" then st.1 ++ [pyStrip st.2] else st.1, sentence)
  else
    (st.1, if st.2 ≠ "" then st.2 ++ " " ++ sentence else sentence)

/-- The paragraph loop inside `split_message`, one step: an overflowing
paragraph first flushes the current chunk, then either runs the sentence loop
(when the paragraph alone exceeds the limit) or becomes the current chunk. -/
def paraFoldStep (maxLength : Nat) (st : List String × String) (para : String) :
    List String × String :=
  if maxLength < st.2.length + para.length + 2 then
    if maxLength < para.length then
      (splitSentences para).foldl (sentenceFoldStep maxLength)
        (if st.2 ≠ "" then (st.1 ++ [pyStrip st.2], "") else st)
    else
      ((if st.2 ≠ "" then (st.1 ++ [pyStrip st.2], "") else st).1, para)
  else
    (st.1, if st.2 ≠ "" then st.2 ++ "\n\n" ++ para else para)

/-- `split_message(text, max_length)`. -/
def splitMessage (text : String) (maxLength : Nat) : List String :=
  if text.length ≤ maxLength then [text]
  else
    if ((paraSplit text).foldl (paraFoldStep maxLength) ([], "")).2 ≠ "" then
      ((paraSplit text).foldl (paraFoldStep maxLength) ([], "")).1 ++
        [pyStrip ((paraSplit text).foldl (paraFoldStep maxLength) ([], "")).2]
    else ((paraSplit text).foldl (paraFoldStep maxLength) ([], "")).1

/-- The Telegram message character limit. -/
def MAX_MESSAGE_LENGTH : Nat := 4096

/-- The `[Part i/n]` prefix `_send_message` adds to each chunk. -/
def partHeader (i n : Nat) : String :=
  "<b>[Part " ++ toString i ++ "/" ++ toString n ++ "]</b>\n\n"

/-- `TelegramService._send_message` reduced to the list of texts it posts, in
posting order. -/
def sendMessageTexts (message : String) : List String :=
  if MAX_MESSAGE_LENGTH < message.length then
    (splitMessage message (MAX_MESSAGE_LENGTH - 100)).mapIdx fun i c =>
      if 1 < (splitMessage message (MAX_MESSAGE_LENGTH - 100)).length then
        partHeader (i + 1) (splitMessage message (MAX_MESSAGE_LENGTH - 100)).length ++ c
      else c
  else [message]

/-- All chunks tracked by the `split_message` loops fit in the length limit:
the flushed chunks and the current chunk. -/
def ChunksOk (maxLength : Nat) (st : List String × String) : Prop :=
  (∀ c ∈ st.1, c.length ≤ maxLength) ∧ st.2.length ≤ maxLength

/-! ## Helper lemmas for the best-score fold of `_find_matching_file` -/

/-- The running best score never decreases and dominates every scanned file. -/
theorem bestFold_snd_ge (score : List Char → Nat) (files : List (List Char)) :
    ∀ st : Option (List Char) × Nat,
      st.2 ≤ (files.foldl (bestScoreStep score) st).2 ∧
      ∀ f ∈ files, score f ≤ (files.foldl (bestScoreStep score) st).2 := by
  induction files with
  | nil => intro st; simp
  | cons a as ih =>
    intro st
    have hstep : st.2 ≤ (bestScoreStep score st a).2 ∧
        score a ≤ (bestScoreStep score st a).2 := by
      unfold bestScoreStep
      split_ifs with h
      · exact ⟨le_of_lt h, le_refl _⟩
      · exact ⟨le_refl _, le_of_not_lt h⟩
    constructor
    · exact le_trans hstep.1 (ih (bestScoreStep score st a)).1
    · intro f hf
      rcases List.mem_cons.mp hf with heq | hf
      · rw [heq]
        exact le_trans hstep.2 (ih (bestScoreStep score st a)).1
      · exact (ih (bestScoreStep score st a)).2 f hf

/-- One fold step preserves `BestInv`. -/
theorem bestStep_inv (score : List Char → Nat) (st : Option (List Char) × Nat)
    (h : BestInv score st) (f : List Char) : BestInv score (bestScoreStep score st f) := by
  unfold bestScoreStep
  split_ifs with hlt
  · refine ⟨by simp, ?_⟩
    intro g hg
    simp only at hg ⊢
    simp only [Option.some.injEq] at hg
    rw [hg]
  · exact h

/-- The fold preserves `BestInv`. -/
theorem bestFold_inv (score : List Char → Nat) (files : List (List Char)) :
    ∀ st : Option (List Char) × Nat, BestInv score st →
      BestInv score (files.foldl (bestScoreStep score) st) := by
  induction files with
  | nil => intro st h; simpa using h
  | cons a as ih =>
    intro st h
    exact ih (bestScoreStep score st a) (bestStep_inv score st h a)

/-- If the fold ends with no best file, it started with none and every scanned
file scores at most the initial score. -/
theorem bestFold_none (score : List Char → Nat) (files : List (List Char)) :
    ∀ st : Option (List Char) × Nat,
      (files.foldl (bestScoreStep score) st).1 = none →
      st.1 = none ∧ ∀ f ∈ files, score f ≤ st.2 := by
  induction files with
  | nil => intro st h; simpa using h
  | cons a as ih =>
    intro st h
    simp only [List.foldl_cons] at h
    obtain ⟨h1, h2⟩ := ih (bestScoreStep score st a) h
    by_cases hlt : st.2 < score a
    · exfalso
      have : bestScoreStep score st a = (some a, score a) := by
        unfold bestScoreStep; simp [hlt]
      rw [this] at h1
      simp at h1
    · have heq : bestScoreStep score st a = st := by
        unfold bestScoreStep; simp [hlt]
      rw [heq] at h1 h2
      refine ⟨h1, ?_⟩
      intro f hf
      rcases List.mem_cons.mp hf with rfl | hf
      · omega
      · exact h2 f hf

/-- A fold over files that all score zero stays at the initial state. -/
theorem bestFold_allzero (score : List Char → Nat) (files : List (List Char))
    (h : ∀ f ∈ files, score f = 0) :
    files.foldl (bestScoreStep score) (none, 0) = (none, 0) := by
  induction files with
  | nil => simp
  | cons a as ih =>
    have ha : score a = 0 := h a (by simp)
    simp only [List.foldl_cons]
    have : bestScoreStep score (none, 0) a = (none, 0) := by
      unfold bestScoreStep; simp [ha]
    rw [this]
    exact ih fun f hf => h f (List.mem_cons_of_mem a hf)

/-- Declarative description of `_find_matching_file` for any guest name: no
match exactly when every file scores zero, and a returned match has positive
score dominating every listed file. -/
theorem findMatchingFile_spec (files : List (List Char)) (guestName : List Char) :
    (findMatchingFile files guestName = none ↔
      ∀ f ∈ files,
        scoreFilename f (toLowerL guestName) (pyWords (toLowerL guestName)) = 0) ∧
    ∀ f, findMatchingFile files guestName = some f →
      0 < scoreFilename f (toLowerL guestName) (pyWords (toLowerL guestName)) ∧
      ∀ g ∈ files,
        scoreFilename g (toLowerL guestName) (pyWords (toLowerL guestName)) ≤
          scoreFilename f (toLowerL guestName) (pyWords (toLowerL guestName)) := by
  have hinv : BestInv
      (fun f => scoreFilename f (toLowerL guestName) (pyWords (toLowerL guestName)))
      (bestScoreFold files guestName) :=
    bestFold_inv _ files (none, 0) ⟨fun _ => rfl, fun f h => by simp at h⟩
  constructor
  · constructor
    · intro h
      unfold findMatchingFile at h
      intro f hf
      split_ifs at h with hc
      · obtain ⟨hsome, _⟩ := hc
        rw [h] at hsome
        simp at hsome
      · push_neg at hc
        rcases hopt : (bestScoreFold files guestName).1 with _ | f0
        · obtain ⟨_, hall⟩ :=
            bestFold_none
              (fun f => scoreFilename f (toLowerL guestName) (pyWords (toLowerL guestName)))
              files (none, 0) hopt
          exact Nat.le_zero.mp (hall f hf)
        · have h2 := hinv.2 f0 hopt
          have hz : (bestScoreFold files guestName).2 = 0 := by
            have hle := hc (by simp [hopt])
            omega
          have hall :=
            (bestFold_snd_ge
              (fun f => scoreFilename f (toLowerL guestName) (pyWords (toLowerL guestName)))
              files (none, 0)).2 f hf
          exact Nat.le_zero.mp (hz ▸ hall)
    · intro h
      unfold findMatchingFile
      rw [show bestScoreFold files guestName = (none, 0) from
        bestFold_allzero
          (fun f => scoreFilename f (toLowerL guestName) (pyWords (toLowerL guestName)))
          files h]
      simp
  · intro f hmain
    unfold findMatchingFile at hmain
    split_ifs at hmain with hc
    · obtain ⟨hsome, hpos⟩ := hc
      have h2 : (bestScoreFold files guestName).2 =
          scoreFilename f (toLowerL guestName) (pyWords (toLowerL guestName)) :=
        hinv.2 f hmain
      refine ⟨h2 ▸ hpos, ?_⟩
      intro g hg
      have hge : scoreFilename g (toLowerL guestName) (pyWords (toLowerL guestName)) ≤
          (bestScoreFold files guestName).2 :=
        (bestFold_snd_ge
          (fun f => scoreFilename f (toLowerL guestName) (pyWords (toLowerL guestName)))
          files (none, 0)).2 g hg
      exact hge.trans (le_of_eq h2)

/-! ## Claim theorems -/

/-- **C1** (code bug): the detection-mode flags the dispatch in
`PodcastSummaryBot._process_podcast` reads (`use_dropbox_for_detection`,
`use_apple_for_detection`) are not fields of `PodcastConfig`, so reading them
on any configured podcast is not well-defined: the dispatch raises
`AttributeError` for every configuration, in particular for every entry of
`PODCASTS`. -/
theorem detection_flags_missing :
    "use_dropbox_for_detection" ∉ podcastConfigFields ∧
    "use_apple_for_detection" ∉ podcastConfigFields ∧
    (∀ (c : PodcastConfig) (browserActive : Bool),
      selectDetectionMethod c browserActive =
        .error "AttributeError: use_dropbox_for_detection") ∧
    ∀ p ∈ PODCASTS, selectDetectionMethod p true =
      .error "AttributeError: use_dropbox_for_detection" := by
  refine ⟨by decide, by decide, ?_, ?_⟩
  · intro c browserActive
    rfl
  · intro p _
    rfl

/-- **C2**: with a stored entry for the podcast, `is_new_episode` returns
false exactly when the stored guid equals the detected one; a run whose
detection repeats the stored guid attempts no notification and leaves the
tracker unchanged; and the only way a run changes the tracker is a new guid
together with successful processing. -/
theorem dedup_second_run (s : TrackerState) (pid g : String) (e : TrackedEntry)
    (hstored : getLastEpisode s pid = some e) :
    ((isNewEpisode s pid g = false) ↔ e.guid = g) ∧
    (∀ (ep : DetectedEpisode) (succ : Bool) (now : Int), ep.guid = g → e.guid = g →
      processDetected s pid (some ep) succ now =
        { state := s, processed := false, notifications := 0 }) ∧
    ∀ (ep : DetectedEpisode) (succ : Bool) (now : Int),
      (processDetected s pid (some ep) succ now).state ≠ s →
      isNewEpisode s pid ep.guid = true ∧ succ = true := by
  have hiff : ∀ g' : String, (isNewEpisode s pid g' = false) ↔ e.guid = g' := by
    intro g'
    simp [isNewEpisode, hstored, bne]
  refine ⟨hiff g, ?_, ?_⟩
  · intro ep succ now hg he
    have hfalse : isNewEpisode s pid ep.guid = false := (hiff ep.guid).mpr (hg ▸ he)
    simp [processDetected, hfalse]
  · intro ep succ now hne
    by_cases hnew : isNewEpisode s pid ep.guid = true
    · by_cases hs : succ = true
      · exact ⟨hnew, hs⟩
      · exfalso
        apply hne
        simp [processDetected, hnew, Bool.eq_false_iff.mpr hs]
    · exfalso
      apply hne
      simp [processDetected, Bool.eq_false_iff.mpr hnew]

/-- **C2** (witness): the spec's synthetic scenario, stored guid `"B"`:
detecting `"A"` is new, detecting `"B"` is not, and re-detecting `"B"` leaves
state and notification count unchanged. -/
theorem dedup_second_run_witness :
    isNewEpisode [("p", { guid := "B", title := "t" })] "p" "A" = true ∧
    isNewEpisode [("p", { guid := "B", title := "t" })] "p" "B" = false ∧
    processDetected [("p", { guid := "B", title := "t" })] "p"
      (some { guid := "B", title := "t2" }) true 0 =
      { state := [("p", { guid := "B", title := "t" })], processed := false,
        notifications := 0 } := by
  refine ⟨by decide, ?_, ?_⟩
  · exact (dedup_second_run [("p", { guid := "B", title := "t" })] "p" "B"
      { guid := "B", title := "t" } rfl).1.mpr rfl
  · exact (dedup_second_run [("p", { guid := "B", title := "t" })] "p" "B"
      { guid := "B", title := "t" } rfl).2.1 { guid := "B", title := "t2" } true 0 rfl rfl

/-- **C3** (counterexample): `_save` is not atomic.  Its trace contains no
rename at all, and crashing right after the truncating open leaves the data
file empty: neither the old serialized state nor the new one. -/
theorem tracker_save_not_atomic_counterexample :
    hasRename (trackerSaveOps "data/last_episodes.json" "NEWSTATE") = false ∧
    runFsOps ((trackerSaveOps "data/last_episodes.json" "NEWSTATE").take 2)
      (singleFileFs "data/last_episodes.json" "OLDSTATE") "data/last_episodes.json" =
      some "" ∧
    (some "" : Option String) ≠ some "OLDSTATE" ∧
    (some "" : Option String) ≠ some "NEWSTATE" := by
  exact ⟨by decide, by rfl, by decide, by decide⟩

/-- **C3** (amended): `_save` ensures the parent directory exists, then
truncates the data file in place and writes the serialized state into it; no
temporary file and no rename are involved, a completed save does store the new
state, but there is a crash point at which the persisted file is neither the
old state nor the new one. -/
theorem tracker_save_overwrites_in_place (dataFile oldContent newContent : String)
    (hold : oldContent ≠ "") (hnew : newContent ≠ "") :
    hasRename (trackerSaveOps dataFile newContent) = false ∧
    trackerSaveOps dataFile newContent =
      [.mkdirParents (parentDir dataFile), .openTrunc dataFile,
       .writeAll dataFile newContent] ∧
    runFsOps (trackerSaveOps dataFile newContent)
      (singleFileFs dataFile oldContent) dataFile = some newContent ∧
    ∃ k, runFsOps ((trackerSaveOps dataFile newContent).take k)
        (singleFileFs dataFile oldContent) dataFile ≠ some oldContent ∧
      runFsOps ((trackerSaveOps dataFile newContent).take k)
        (singleFileFs dataFile oldContent) dataFile ≠ some newContent := by
  refine ⟨by simp [hasRename, trackerSaveOps], rfl, ?_, 2, ?_, ?_⟩
  · simp [trackerSaveOps, runFsOps, applyFsOp]
  · simp [trackerSaveOps, runFsOps, applyFsOp]
    exact fun h => hold h.symm
  · simp [trackerSaveOps, runFsOps, applyFsOp]
    exact fun h => hnew h.symm

/-- **C3** (witness for the amended statement): instantiated at the tracker's
default data file with distinct non-empty old and new serializations. -/
theorem tracker_save_overwrites_in_place_witness :
    ∃ k, runFsOps ((trackerSaveOps "data/last_episodes.json" "NEW").take k)
        (singleFileFs "data/last_episodes.json" "OLD") "data/last_episodes.json" ≠
        some "OLD" ∧
      runFsOps ((trackerSaveOps "data/last_episodes.json" "NEW").take k)
        (singleFileFs "data/last_episodes.json" "OLD") "data/last_episodes.json" ≠
        some "NEW" :=
  (tracker_save_overwrites_in_place "data/last_episodes.json" "OLD" "NEW"
    (by decide) (by decide)).2.2.2

/-- **C4** (counterexample): `titlesMatch("How to Scale | Jane Doe", "jane
doe")` returns true, not false as claimed. -/
theorem titlesMatch_jane_doe_counterexample :
    titlesMatch "How to Scale | Jane Doe" "jane doe" = true := by decide

/-- **C4** (amended): the call returns true because after normalization the
second title is contained in the first as a substring; the full normalized
strings do differ and their first words differ, and in general `titlesMatch`
decides exactly by the four documented rules (exact match after
normalization, substring containment, first-5-word equality, equality of the
first three significant words). -/
theorem titlesMatch_jane_doe_amended :
    titlesMatch "How to Scale | Jane Doe" "jane doe" = true ∧
    normalizeTitleL "How to Scale | Jane Doe" ≠ normalizeTitleL "jane doe" ∧
    substrOf (normalizeTitleL "jane doe") (normalizeTitleL "How to Scale | Jane Doe") =
      true ∧
    (pyWords (normalizeTitleL "How to Scale | Jane Doe")).take 5 ≠
      (pyWords (normalizeTitleL "jane doe")).take 5 ∧
    ∀ a b : String, titlesMatch a b = true ↔
      (normalizeTitleL a = normalizeTitleL b ∨
       substrOf (normalizeTitleL a) (normalizeTitleL b) = true ∨
       substrOf (normalizeTitleL b) (normalizeTitleL a) = true ∨
       (pyWords (normalizeTitleL a)).take 5 = (pyWords (normalizeTitleL b)).take 5 ∨
       sigWords3 (normalizeTitleL a) = sigWords3 (normalizeTitleL b)) := by
  refine ⟨by decide, by decide, by decide, by decide, ?_⟩
  intro a b
  unfold titlesMatch
  split_ifs with h1 h2 h3 <;> (simp_all; try tauto)

/-- **C5**: `_find_matching_file` returns no match exactly when every file
scores zero; a returned match has positive score dominating every listed
file; and the score of `Lenny's Podcast - Jane Doe.txt` against `Jane Doe`
(which is 15) strictly exceeds the score of any file name whose
extension-stripped lowercase form contains neither `jane` nor `doe`. -/
theorem lennys_archive_scoring (files : List (List Char)) (fname : List Char)
    (hjane : substrOf "jane".data (toLowerL (stemOf fname)) = false)
    (hdoe : substrOf "doe".data (toLowerL (stemOf fname)) = false) :
    (findMatchingFile files "Jane Doe".data = none ↔
      ∀ f ∈ files, scoreFilename f "jane doe".data ["jane".data, "doe".data] = 0) ∧
    (∀ f, findMatchingFile files "Jane Doe".data = some f →
      0 < scoreFilename f "jane doe".data ["jane".data, "doe".data] ∧
      ∀ g ∈ files, scoreFilename g "jane doe".data ["jane".data, "doe".data] ≤
        scoreFilename f "jane doe".data ["jane".data, "doe".data]) ∧
    scoreFilename fname "jane doe".data ["jane".data, "doe".data] <
      scoreFilename ("Lenny\x27s Podcast - Jane Doe.txt").data "jane doe".data
        ["jane".data, "doe".data] := by
  have hgl : toLowerL "Jane Doe".data = "jane doe".data := by decide
  have hparts : pyWords "jane doe".data = ["jane".data, "doe".data] := by decide
  have hspec := findMatchingFile_spec files "Jane Doe".data
  rw [hgl] at hspec
  rw [hparts] at hspec
  refine ⟨hspec.1, hspec.2, ?_⟩
  have hlenny : scoreFilename ("Lenny\x27s Podcast - Jane Doe.txt").data "jane doe".data
      ["jane".data, "doe".data] = 15 := by decide
  rw [hlenny]
  have hfull : substrOf "jane doe".data (toLowerL (stemOf fname)) = false := by
    by_contra hcon
    have htrue : substrOf "jane doe".data (toLowerL (stemOf fname)) = true := by
      cases hb : substrOf "jane doe".data (toLowerL (stemOf fname)) with
      | true => rfl
      | false => exact absurd hb hcon
    have hinf : "jane doe".data <:+: toLowerL (stemOf fname) := of_decide_eq_true htrue
    have hjd : "jane".data <:+: "jane doe".data := by decide
    have : substrOf "jane".data (toLowerL (stemOf fname)) = true :=
      decide_eq_true (hjd.trans hinf)
    rw [this] at hjane
    exact Bool.noConfusion hjane
  have hfilter : (["jane".data, "doe".data].filter
      fun p => substrOf p (toLowerL (stemOf fname))) = [] := by
    simp [List.filter_cons, hjane, hdoe]
  unfold scoreFilename
  rw [hfilter, hfull]
  simp only [List.length_nil, List.length_cons, List.length_singleton]
  split_ifs <;> first | exact absurd trivial ‹¬True› | exact ‹False›.elim | omega

/-- **C5** (witness): a file name containing neither `jane` nor `doe` scores
strictly below the Lenny's file, and on a two-file listing the matcher picks
the Lenny's file with positive dominating score. -/
theorem lennys_archive_scoring_witness :
    scoreFilename "Other Person.txt".data "jane doe".data ["jane".data, "doe".data] <
      scoreFilename ("Lenny\x27s Podcast - Jane Doe.txt").data "jane doe".data
        ["jane".data, "doe".data] ∧
    (findMatchingFile ["Other Person.txt".data] "Jane Doe".data = none ↔
      ∀ f ∈ ["Other Person.txt".data],
        scoreFilename f "jane doe".data ["jane".data, "doe".data] = 0) :=
  ⟨(lennys_archive_scoring [] "Other Person.txt".data (by decide) (by decide)).2.2,
   (lennys_archive_scoring ["Other Person.txt".data] "Other Person.txt".data
     (by decide) (by decide)).1⟩

/-- **C10**: the enrichment `_enrich_from_apple_podcasts` never changes the
episode's identity or content fields: any episode it returns keeps the base
`guid`, `podcast_id`, `audio_url` and `duration`; and when enrichment yields
nothing, the detection result carries the base episode unchanged. -/
theorem enrich_frame_preservation (ep : Episode) (pc : PodcastConfig)
    (pd : Option ApplePageData) (e : Episode)
    (h : enrichFromApplePodcasts ep pc pd = some e) :
    e.guid = ep.guid ∧ e.podcast_id = ep.podcast_id ∧ e.audio_url = ep.audio_url ∧
    e.duration = ep.duration ∧
    ∀ (base : Episode) (t f : String),
      finalizeDetect base none t f =
        { episode := base, transcript := t, filename := f } := by
  unfold enrichFromApplePodcasts at h
  split_ifs at h
  cases pd with
  | none => simp at h
  | some d =>
    simp only [Option.some.injEq] at h
    subst h
    exact ⟨rfl, rfl, rfl, rfl, fun base t f => rfl⟩

/-- Structural specification of the `_split_audio` loop: a successful run
extends the accumulator with contiguous segments starting at the current
position, every appended segment's export is at or below the hard limit and
ends within the audio, and the segments reach the end of the audio. -/
theorem splitAudioLoop_spec (exportSize : Nat → Nat → Nat) (durationMs : Nat) :
    ∀ (fuel startMs chunkDur : Nat) (acc out : List (Nat × Nat)),
      splitAudioLoop exportSize durationMs fuel startMs chunkDur acc = some out →
      ∃ tail, out = acc ++ tail ∧ chainedFrom startMs tail ∧
        (∀ c ∈ tail, exportSize c.1 c.2 ≤ MAX_FILE_SIZE ∧ c.2 ≤ durationMs) ∧
        durationMs ≤ endOfChunks startMs tail := by
  intro fuel
  induction fuel with
  | zero =>
    intro startMs chunkDur acc out h
    simp [splitAudioLoop] at h
  | succ n ih =>
    intro startMs chunkDur acc out h
    unfold splitAudioLoop at h
    split_ifs at h with hlt hsz
    · exact ih startMs (chunkDur * 7 / 10) acc out h
    · obtain ⟨tail, h1, h2, h3, h4⟩ :=
        ih (min (startMs + chunkDur) durationMs) chunkDur
          (acc ++ [(startMs, min (startMs + chunkDur) durationMs)]) out h
      refine ⟨(startMs, min (startMs + chunkDur) durationMs) :: tail, ?_, ?_, ?_, ?_⟩
      · rw [h1]
        simp
      · exact ⟨rfl, le_min (Nat.le_add_right _ _) (le_of_lt hlt), h2⟩
      · intro c hc
        rcases List.mem_cons.mp hc with heq | hc
        · rw [heq]
          exact ⟨le_of_not_lt hsz, min_le_right _ _⟩
        · exact h3 c hc
      · exact h4
    · obtain rfl : acc = out := Option.some.injEq _ _ ▸ h
      refine ⟨[], (List.append_nil _).symm, trivial, by simp, le_of_not_lt hlt⟩

/-- **C6**: the split targets 80 percent of the 25 MB hard limit with an
enforced minimum segment duration of 60 seconds; every successful split
yields contiguous in-order segments each of whose exports is at or below the
hard limit (an oversized export shrinks the duration by 0.7 and retries
instead of aborting); for any asset above the limit under a
bitrate-proportional encoder a successful split has at least 2 segments; a
60 MB one-hour asset splits into 3 equal segments, a 60 MB one-minute asset
exercises the shrink-and-retry path and still splits into 3 in-limit
segments; and joining preserves segment order. -/
theorem audio_split_segments :
    TARGET_CHUNK_SIZE * 5 = MAX_FILE_SIZE * 4 ∧
    (∀ fileSize durationMs, 60 * 1000 ≤ initialChunkDurationMs fileSize durationMs) ∧
    (∀ (exportSize : Nat → Nat → Nat) (fileSize durationMs fuel : Nat)
        (out : List (Nat × Nat)),
      splitAudioChunks exportSize fileSize durationMs fuel = some out →
      chainedFrom 0 out ∧ ∀ c ∈ out, exportSize c.1 c.2 ≤ MAX_FILE_SIZE) ∧
    (∀ (fileSize durationMs fuel : Nat) (out : List (Nat × Nat)),
      MAX_FILE_SIZE < fileSize → 0 < durationMs →
      splitAudioChunks (proportionalSize fileSize durationMs) fileSize durationMs fuel =
        some out → 2 ≤ out.length) ∧
    splitAudioChunks (proportionalSize (60 * 1024 * 1024) 3600000) (60 * 1024 * 1024)
      3600000 100 = some [(0, 1200000), (1200000, 2400000), (2400000, 3600000)] ∧
    splitAudioChunks (proportionalSize (60 * 1024 * 1024) 60000) (60 * 1024 * 1024)
      60000 100 = some [(0, 20580), (20580, 41160), (41160, 60000)] ∧
    ∀ t0 t1 t2 : String, joinSpace [t0, t1, t2] = t0 ++ " " ++ t1 ++ " " ++ t2 := by
  refine ⟨by decide, ?_, ?_, ?_, by decide, by decide, ?_⟩
  · intro fileSize durationMs
    exact le_max_right _ _
  · intro exportSize fileSize durationMs fuel out h
    obtain ⟨tail, h1, h2, h3, _⟩ :=
      splitAudioLoop_spec exportSize durationMs fuel 0
        (initialChunkDurationMs fileSize durationMs) [] out h
    rw [List.nil_append] at h1
    subst h1
    exact ⟨h2, fun c hc => (h3 c hc).1⟩
  · intro fileSize durationMs fuel out hbig hdur h
    obtain ⟨tail, h1, h2, h3, h4⟩ :=
      splitAudioLoop_spec (proportionalSize fileSize durationMs) durationMs fuel 0
        (initialChunkDurationMs fileSize durationMs) [] out h
    rw [List.nil_append] at h1
    subst h1
    match out, h2, h3, h4 with
    | [], _, _, h4 =>
      exfalso
      simp [endOfChunks] at h4
      omega
    | [c], h2, h3, h4 =>
      exfalso
      have hc1 : c.1 = 0 := h2.1
      have hc2 : c.2 = durationMs := by
        have hle := (h3 c (by simp)).2
        have hge : durationMs ≤ c.2 := h4
        omega
      have hsize := (h3 c (by simp)).1
      rw [hc1, hc2] at hsize
      unfold proportionalSize at hsize
      rw [Nat.sub_zero, Nat.mul_div_cancel _ hdur] at hsize
      omega
    | c1 :: c2 :: rest, _, _, _ => simp
  · intro t0 t1 t2
    rfl

/-- **C6** (witness): the general parts of `audio_split_segments`
instantiated at the concrete 60 MB, one-hour scenario. -/
theorem audio_split_segments_witness :
    MAX_FILE_SIZE < 60 * 1024 * 1024 ∧ (0 : Nat) < 3600000 ∧
    2 ≤ [((0 : Nat), (1200000 : Nat)), (1200000, 2400000), (2400000, 3600000)].length ∧
    chainedFrom 0 [((0 : Nat), (1200000 : Nat)), (1200000, 2400000), (2400000, 3600000)] := by
  refine ⟨by decide, by decide, ?_, ?_⟩
  · exact audio_split_segments.2.2.2.1 (60 * 1024 * 1024) 3600000 100 _ (by decide)
      (by decide) audio_split_segments.2.2.2.2.1
  · exact (audio_split_segments.2.2.1 (proportionalSize (60 * 1024 * 1024) 3600000)
      (60 * 1024 * 1024) 3600000 100 _ audio_split_segments.2.2.2.2.1).1

/-- `collectTranscripts` keeps exactly the successful, non-empty segment
texts, in their original order. -/
theorem collectTranscripts_eq (results : List (Option String)) :
    collectTranscripts results = (results.filterMap id).filter (fun t => t ≠ "") := by
  have hgo : ∀ (rs : List (Option String)) (acc : List String),
      rs.foldl
        (fun acc r =>
          match r with
          | some t => if t = "" then acc else acc ++ [t]
          | none => acc) acc =
      acc ++ (rs.filterMap id).filter (fun t => t ≠ "") := by
    intro rs
    induction rs with
    | nil => intro acc; simp
    | cons r rest ih =>
      intro acc
      cases r with
      | none => simpa using ih acc
      | some t =>
        by_cases ht : t = ""
        · subst ht
          simpa using ih acc
        · simp only [List.foldl_cons, List.filterMap_cons, Option.some.injEq, id]
          rw [if_neg ht, ih (acc ++ [t])]
          simp [List.filter_cons, ht]
  simpa using hgo results []

/-- **C7**: in the chunked transcription tail, a failed (or empty) segment is
simply omitted and the remaining successful segment texts are joined in
order; the result is not-found exactly when no segment succeeded, and
otherwise it is the space-join of the successful texts (cleaned), so one
failure among successes never fails the whole operation. -/
theorem chunk_partial_success (results : List (Option String)) :
    collectTranscripts results = (results.filterMap id).filter (fun t => t ≠ "") ∧
    (joinChunkTranscripts results = none ↔ collectTranscripts results = []) ∧
    (collectTranscripts results ≠ [] →
      joinChunkTranscripts results =
        some (cleanTranscript (joinSpace (collectTranscripts results)))) := by
  refine ⟨collectTranscripts_eq results, ?_, ?_⟩
  · unfold joinChunkTranscripts
    split_ifs with h
    · simp [List.isEmpty_iff.mp h]
    · simp only [iff_false, reduceCtorEq, false_iff]
      exact fun hc => h (List.isEmpty_iff.mpr hc)
  · intro h
    unfold joinChunkTranscripts
    rw [if_neg (by simpa [List.isEmpty_iff] using h)]

/-- **C7** (witness): one failing segment among two successes yields the join
of the successes; all segments failing yields not-found. -/
theorem chunk_partial_success_witness :
    collectTranscripts [some "hello", none, some "world"] = ["hello", "world"] ∧
    joinChunkTranscripts [some "hello", none, some "world"] = some "hello world" ∧
    joinChunkTranscripts [none, none] = none := by
  refine ⟨by decide, ?_, ?_⟩
  · rw [(chunk_partial_success [some "hello", none, some "world"]).2.2 (by decide)]
    decide
  · exact (chunk_partial_success [none, none]).2.1.mpr (by decide)

set_option maxRecDepth 20000 in
/-- **C8** (code bug evaluation): loading the tracker tolerates a missing
file and a JSON-unparseable (but UTF-8-decodable) file, both yielding the
empty state, and a save of the reset state produces valid JSON (`{}`, which
parses back, as does a one-entry save) — but a persisted file whose bytes are
not valid UTF-8 (here the single byte `0xFF`) raises `UnicodeDecodeError`,
which the `except (json.JSONDecodeError, IOError)` clause of `_load` does not
catch, so loading does raise on that corrupt file. -/
theorem tracker_load_corruption :
    loadTracker (some [0xFF]) = .error .unicodeDecodeError ∧
    loadTracker none = .ok (.jobj []) ∧
    parseJsonL "this is not json".data = none ∧
    loadTracker (some (asciiBytes "this is not json")) = .ok (.jobj []) ∧
    dumpTrackerData [] = "\x7b\x7d" ∧
    parseJson (dumpTrackerData []) = some (.jobj []) ∧
    parseJson (dumpTrackerData [("lennys-podcast",
      { guid := "dropbox-Jane Doe.txt", title := "Lenny\x27s Podcast | Jane Doe",
        processed_at := "2026-01-25T00:00:00" })]) =
      some (.jobj [("lennys-podcast", .jobj
        [("guid", .jstr "dropbox-Jane Doe.txt"),
         ("title", .jstr "Lenny\x27s Podcast | Jane Doe"),
         ("published_date", .jnull),
         ("processed_at", .jstr "2026-01-25T00:00:00")])]) := by
  exact ⟨rfl, rfl, rfl, rfl, rfl, rfl, rfl⟩

/-- **C9** (counterexample): a text above the limit consisting of a single
long sentence is returned as one oversized chunk, so not every chunk produced
by `split_message` is at most `max_length` long. -/
theorem split_message_counterexample :
    splitMessage "aaaaaaaaaa" 5 = ["aaaaaaaaaa"] ∧
    5 < ("aaaaaaaaaa" : String).length := ⟨by decide, by decide⟩

/-- Stripping never lengthens a character list. -/
theorem pyStripL_length_le (l : List Char) : (pyStripL l).length ≤ l.length := by
  unfold pyStripL
  calc ((l.dropWhile isPyWs).reverse.dropWhile isPyWs).reverse.length
      = ((l.dropWhile isPyWs).reverse.dropWhile isPyWs).length := List.length_reverse _
    _ ≤ (l.dropWhile isPyWs).reverse.length := (List.dropWhile_sublist _).length_le
    _ = (l.dropWhile isPyWs).length := List.length_reverse _
    _ ≤ l.length := (List.dropWhile_sublist _).length_le

/-- Stripping never lengthens a string. -/
theorem pyStrip_length_le (s : String) : (pyStrip s).length ≤ s.length :=
  pyStripL_length_le s.data

/-- Flushing the current chunk preserves the bound. -/
theorem flush_ok (maxLength : Nat) (st : List String × String)
    (hst : ChunksOk maxLength st) :
    ChunksOk maxLength (st.1 ++ [pyStrip st.2], "") := by
  constructor
  · intro c hc
    rcases List.mem_append.mp hc with hc | hc
    · exact hst.1 c hc
    · simp only [List.mem_singleton] at hc
      subst hc
      exact le_trans (pyStrip_length_le st.2) hst.2
  · show ("" : String).length ≤ maxLength
    simp

/-- One sentence step keeps all chunks within the limit, provided the
sentence itself fits. -/
theorem sentenceFoldStep_ok (maxLength : Nat) (st : List String × String)
    (sentence : String) (hst : ChunksOk maxLength st)
    (hs : sentence.length ≤ maxLength) :
    ChunksOk maxLength (sentenceFoldStep maxLength st sentence) := by
  unfold sentenceFoldStep
  by_cases hover : maxLength < st.2.length + sentence.length + 1
  · rw [if_pos hover]
    by_cases hne : st.2 ≠ ""
    · rw [if_pos hne]
      exact ⟨(flush_ok maxLength st hst).1, hs⟩
    · rw [if_neg hne]
      exact ⟨hst.1, hs⟩
  · rw [if_neg hover]
    by_cases hne : st.2 ≠ ""
    · rw [if_pos hne]
      refine ⟨hst.1, ?_⟩
      show (st.2 ++ " " ++ sentence).length ≤ maxLength
      have hsp : (" " : String).length = 1 := rfl
      have hlen : (st.2 ++ " " ++ sentence).length =
          st.2.length + (1 + sentence.length) := by
        rw [String.length_append, String.length_append, hsp]
        omega
      omega
    · rw [if_neg hne]
      exact ⟨hst.1, hs⟩

/-- The sentence loop keeps all chunks within the limit when every sentence
fits. -/
theorem sentenceFold_ok (maxLength : Nat) :
    ∀ sentences : List String, (∀ s ∈ sentences, s.length ≤ maxLength) →
      ∀ st, ChunksOk maxLength st →
        ChunksOk maxLength (sentences.foldl (sentenceFoldStep maxLength) st) := by
  intro sentences
  induction sentences with
  | nil => intro _ st h; simpa using h
  | cons s rest ih =>
    intro hs st h
    simp only [List.foldl_cons]
    exact ih (fun x hx => hs x (List.mem_cons_of_mem s hx))
      (sentenceFoldStep maxLength st s)
      (sentenceFoldStep_ok maxLength st s h (hs s (List.mem_cons_self s rest)))

/-- One paragraph step keeps all chunks within the limit, provided every
sentence of an oversized paragraph fits. -/
theorem paraFoldStep_ok (maxLength : Nat) (st : List String × String) (para : String)
    (hst : ChunksOk maxLength st)
    (hsent : maxLength < para.length → ∀ s ∈ splitSentences para, s.length ≤ maxLength) :
    ChunksOk maxLength (paraFoldStep maxLength st para) := by
  unfold paraFoldStep
  by_cases hover : maxLength < st.2.length + para.length + 2
  · rw [if_pos hover]
    by_cases hbig : maxLength < para.length
    · rw [if_pos hbig]
      by_cases hne : st.2 ≠ ""
      · rw [if_pos hne]
        exact sentenceFold_ok maxLength (splitSentences para) (hsent hbig) _
          (flush_ok maxLength st hst)
      · rw [if_neg hne]
        exact sentenceFold_ok maxLength (splitSentences para) (hsent hbig) _ hst
    · rw [if_neg hbig]
      by_cases hne : st.2 ≠ ""
      · rw [if_pos hne]
        exact ⟨(flush_ok maxLength st hst).1, le_of_not_lt hbig⟩
      · rw [if_neg hne]
        exact ⟨hst.1, le_of_not_lt hbig⟩
  · rw [if_neg hover]
    by_cases hne : st.2 ≠ ""
    · rw [if_pos hne]
      refine ⟨hst.1, ?_⟩
      show (st.2 ++ "\n\n" ++ para).length ≤ maxLength
      have hnl : ("\n\n" : String).length = 2 := rfl
      have hlen : (st.2 ++ "\n\n" ++ para).length =
          st.2.length + (2 + para.length) := by
        rw [String.length_append, String.length_append, hnl]
        omega
      omega
    · rw [if_neg hne]
      refine ⟨hst.1, ?_⟩
      show para.length ≤ maxLength
      push_neg at hne
      have hz : st.2.length = 0 := by rw [hne]; rfl
      omega

/-- The paragraph loop keeps all chunks within the limit. -/
theorem paraFold_ok (maxLength : Nat) :
    ∀ paras : List String,
      (∀ p ∈ paras, maxLength < p.length →
        ∀ s ∈ splitSentences p, s.length ≤ maxLength) →
      ∀ st, ChunksOk maxLength st →
        ChunksOk maxLength (paras.foldl (paraFoldStep maxLength) st) := by
  intro paras
  induction paras with
  | nil => intro _ st h; simpa using h
  | cons p rest ih =>
    intro hp st h
    simp only [List.foldl_cons]
    exact ih (fun x hx => hp x (List.mem_cons_of_mem p hx))
      (paraFoldStep maxLength st p)
      (paraFoldStep_ok maxLength st p h (hp p (List.mem_cons_self p rest)))

/-- **C9** (amended): a text at or below the limit is returned as a single
chunk unchanged; every chunk built from whole paragraphs or sentences is at
most `max_length` long — precisely, whenever each sentence of each oversized
paragraph fits within the limit, every chunk does (the counterexample shows
the bound fails for a longer sentence, since there is no character-level
split); and `_send_message` posts exactly the chunks of
`split_message(text, 4096 - 100)` sequentially, one post for a short
message. -/
theorem split_message_bounds :
    (∀ (text : String) (maxLength : Nat), text.length ≤ maxLength →
      splitMessage text maxLength = [text]) ∧
    (∀ (text : String) (maxLength : Nat),
      (∀ p ∈ paraSplit text, maxLength < p.length →
        ∀ s ∈ splitSentences p, s.length ≤ maxLength) →
      ∀ c ∈ splitMessage text maxLength, c.length ≤ maxLength) ∧
    (∀ m : String, MAX_MESSAGE_LENGTH < m.length →
      (sendMessageTexts m).length =
        (splitMessage m (MAX_MESSAGE_LENGTH - 100)).length) ∧
    ∀ m : String, m.length ≤ MAX_MESSAGE_LENGTH → sendMessageTexts m = [m] := by
  refine ⟨?_, ?_, ?_, ?_⟩
  · intro text maxLength h
    unfold splitMessage
    rw [if_pos h]
  · intro text maxLength hsent c hc
    unfold splitMessage at hc
    have hok : ChunksOk maxLength
        ((paraSplit text).foldl (paraFoldStep maxLength) ([], "")) :=
      paraFold_ok maxLength (paraSplit text) hsent ([], "")
        ⟨by simp, by simp⟩
    split_ifs at hc with hle hne
    · simp only [List.mem_singleton] at hc
      exact hc ▸ hle
    · rcases List.mem_append.mp hc with hc | hc
      · exact hok.1 c hc
      · simp only [List.mem_singleton] at hc
        exact hc ▸ le_trans
          (pyStrip_length_le ((paraSplit text).foldl (paraFoldStep maxLength) ([], "")).2)
          hok.2
    · exact hok.1 c hc
  · intro m h
    unfold sendMessageTexts
    rw [if_pos h]
    simp
  · intro m h
    unfold sendMessageTexts
    rw [if_neg (not_lt.mpr h)]

/-- **C9** (witness for the amended statement): a short text is a single
unchanged chunk, and a text of short sentences splits into chunks that all
respect the limit. -/
theorem split_message_bounds_witness :
    splitMessage "hi" 10 = ["hi"] ∧
    ∀ c ∈ splitMessage "aaa. bbb. ccc. ddd" 5, c.length ≤ 5 := by
  refine ⟨split_message_bounds.1 "hi" 10 (by decide), ?_⟩
  exact split_message_bounds.2.1 "aaa. bbb. ccc. ddd" 5 (by decide)

/-- **C10** (witness): a concrete archive-detected episode enriched from a
concrete Apple page keeps guid, podcast id, audio URL and duration. -/
theorem enrich_frame_preservation_witness :
    ∃ e, enrichFromApplePodcasts
      { guid := "dropbox-Jane Doe.txt", podcast_id := "lennys-podcast",
        title := "Lenny\x27s Podcast | Jane Doe", audio_url := some "http://a/x.mp3",
        duration := some "1:00:00", guests := [{ name := "Jane Doe" }] }
      { id := "lennys-podcast", name := "Lenny\x27s Podcast", rss_url := "r",
        apple_podcasts_url := some "https://podcasts.apple.com/x" }
      (some { episodeUrl := some "https://podcasts.apple.com/x?i=1",
              appleTitle := some "How to scale | Jane Doe",
              publishedDate := some 20260125, linkedinUrl := none }) = some e ∧
      e.guid = "dropbox-Jane Doe.txt" ∧ e.audio_url = some "http://a/x.mp3" ∧
      e.duration = some "1:00:00" := by
  refine ⟨_, rfl, ?_⟩
  have h := enrich_frame_preservation
    { guid := "dropbox-Jane Doe.txt", podcast_id := "lennys-podcast",
      title := "Lenny\x27s Podcast | Jane Doe", audio_url := some "http://a/x.mp3",
      duration := some "1:00:00", guests := [{ name := "Jane Doe" }] }
    { id := "lennys-podcast", name := "Lenny\x27s Podcast", rss_url := "r",
      apple_podcasts_url := some "https://podcasts.apple.com/x" }
    (some { episodeUrl := some "https://podcasts.apple.com/x?i=1",
            appleTitle := some "How to scale | Jane Doe",
            publishedDate := some 20260125, linkedinUrl := none }) _ rfl
  exact ⟨h.1, h.2.2.1, h.2.2.2.1⟩

end PodcastBot
